import Mathlib

/-!
# Nexora banking core — formal model

The repository ships only the React front end (`src/frontend/src/App.js`);
the specification describes the financial ledger and product-computation
core that the UI delegates to.  This file embeds that core, and the two
product lookup tables that do appear in the front-end source, and proves
the specification's claims about them.

Monetary amounts are integer minor units (`Int`); rates and derived
quantities are exact rationals (`ℚ`); timestamps are rationals measured in
months, so that the spec's calendar-month arithmetic
(`maturity = start + duration_months`) is exact addition.
-/

namespace Nexora

/-- Modelled from the spec (§7): error taxonomy of the core.  The core
itself is missing from the repository; only this taxonomy appears in the
spec. -/
inductive Err where
  | validation
  | notFound
  | insufficientFunds
  | concurrencyConflict
  | persistence
  deriving DecidableEq, Repr

/-- Modelled from the spec (§3 Account): currency, balance in integer
minor units, and a version counter for optimistic concurrency. -/
structure Account where
  currency : String
  balance : Int
  version : Nat
  deriving DecidableEq, Repr

/-- Transaction status (§3): `pending` → `completed`, or rejected before
creation. -/
inductive TxStatus where
  | pending
  | completed
  deriving DecidableEq, Repr

/-- Modelled from the spec (§3 Transaction): the fields relevant to the
transfer claims. -/
structure Transaction where
  sender : Nat
  recipient : Nat
  amount : Int
  description : String
  status : TxStatus
  deriving DecidableEq, Repr

/-- Modelled from the spec (§3 Loan). -/
structure Loan where
  accountId : Nat
  loanType : String
  amount : ℚ
  durationMonths : Int
  monthlyIncome : ℚ
  interestRate : ℚ
  emi : Int
  purpose : String
  status : String
  deriving DecidableEq, Repr

/-- Modelled from the spec (§3 Investment).  `start` and `maturity` are
timestamps in months (so `maturity = start + durationMonths` is the spec's
calendar-month arithmetic). -/
structure Investment where
  accountId : Nat
  investmentType : String
  amount : ℚ
  durationMonths : Int
  start : ℚ
  maturity : ℚ
  expectedReturn : ℚ
  status : String
  deriving DecidableEq, Repr

/-- Modelled from the spec (§4.1, §6): the accounts table, keyed by
account id. -/
abbrev Ledger := Nat → Option Account

/-- Modelled from the spec (§6 persisted state layout): the whole
persisted state of the core. -/
structure BankState where
  ledger : Ledger
  transactions : List Transaction
  loans : List Loan
  investments : List Investment

/-- Modelled from the spec (§4.1):
`apply_delta(account_id, delta, expected_version) -> new_version`
atomically adds `delta` to the balance if `expected_version` matches the
stored version and the resulting balance would be ≥ 0; otherwise fails
with `ConcurrencyConflict` or `InsufficientFunds`.  On success it
increments the version and returns it.  The returned ledger is the ledger
after the call (unchanged on failure). -/
def apply_delta (L : Ledger) (accountId : Nat) (delta : Int)
    (expectedVersion : Nat) : Ledger × Except Err Nat :=
  match L accountId with
  | none => (L, .error .notFound)
  | some a =>
    if a.version ≠ expectedVersion then (L, .error .concurrencyConflict)
    else if a.balance + delta < 0 then (L, .error .insufficientFunds)
    else
      (Function.update L accountId
        (some { a with balance := a.balance + delta, version := a.version + 1 }),
       .ok (a.version + 1))

/-- Modelled from the spec (§4.2):
`transfer(sender_id, recipient_id, amount, description)`.
Preconditions checked before any mutation: `amount > 0`,
`sender_id ≠ recipient_id`, both accounts exist, currencies match; then
the funds check, then both deltas through the Ledger Store, appending a
`completed` Transaction.  Failure returns the input state unchanged
(the spec's all-or-nothing/compensation guarantee). -/
def transfer (s : BankState) (senderId recipientId : Nat) (amount : Int)
    (description : String) : BankState × Except Err Transaction :=
  if amount ≤ 0 then (s, .error .validation)
  else if senderId = recipientId then (s, .error .validation)
  else
    match s.ledger senderId, s.ledger recipientId with
    | none, _ => (s, .error .notFound)
    | some _, none => (s, .error .notFound)
    | some sa, some ra =>
      if sa.currency ≠ ra.currency then (s, .error .validation)
      else if sa.balance < amount then (s, .error .insufficientFunds)
      else
        match apply_delta s.ledger senderId (-amount) sa.version with
        | (_, .error e) => (s, .error e)
        | (L1, .ok _) =>
          match apply_delta L1 recipientId amount ra.version with
          | (_, .error e) => (s, .error e)
          | (L2, .ok _) =>
            let tx : Transaction :=
              ⟨senderId, recipientId, amount, description, .completed⟩
            ({ s with ledger := L2, transactions := s.transactions ++ [tx] },
             .ok tx)

/-- Modelled from the spec (§4.3): the fixed annual-rate table for loan
types; also visible in the front-end source as `loanTypes`
(personal 10.5%, home 8.5%, car 9.5%, education 8.0%, business 11.0%). -/
def loanRate : String → Option ℚ
  | "personal" => some (21 / 2)
  | "home" => some (17 / 2)
  | "car" => some (19 / 2)
  | "education" => some 8
  | "business" => some 11
  | _ => none

/-- Modelled from the spec (§4.3): round-half-up to the smallest currency
unit. -/
def roundHalfUp (q : ℚ) : Int := ⌊q + 1 / 2⌋

/-- Modelled from the spec (§4.3): the exact (un-rounded) EMI.
`r = annual_rate / 12 / 100`; if `r > 0` then
`EMI = P * r * (1+r)^n / ((1+r)^n - 1)`, and if `r = 0` then `EMI = P / n`. -/
def emiQ (P : ℚ) (annualRate : ℚ) (n : Int) : ℚ :=
  let r := annualRate / 12 / 100
  if r = 0 then P / n
  else P * r * (1 + r) ^ n.toNat / ((1 + r) ^ n.toNat - 1)

/-- Modelled from the spec (§4.3): EMI in minor units, round-half-up. -/
def emi (P : ℚ) (annualRate : ℚ) (n : Int) : Int := roundHalfUp (emiQ P annualRate n)

/-- Modelled from the spec (§4.3):
`apply(account_id, loan_type, amount, purpose, duration_months, monthly_income)`.
Preconditions: `amount > 0`, `duration_months > 0`, `monthly_income > 0`,
known `loan_type`; on success persists the Loan with status `applied`. -/
def loanApply (s : BankState) (accountId : Nat) (loanType : String)
    (amount : ℚ) (purpose : String) (durationMonths : Int)
    (monthlyIncome : ℚ) : BankState × Except Err Loan :=
  if amount ≤ 0 then (s, .error .validation)
  else if durationMonths ≤ 0 then (s, .error .validation)
  else if monthlyIncome ≤ 0 then (s, .error .validation)
  else
    match loanRate loanType with
    | none => (s, .error .validation)
    | some rate =>
      let ln : Loan :=
        ⟨accountId, loanType, amount, durationMonths, monthlyIncome, rate,
         emi amount rate durationMonths, purpose, "applied"⟩
      ({ s with loans := s.loans ++ [ln] }, .ok ln)

/-- Modelled from the spec (§4.4): the fixed annual-rate table for
investment types; also visible in the front-end source as
`investmentOptions` (mutual_fund 12%, fixed_deposit 6.5%, equity 15%,
bonds 7.5%, gold 8%). -/
def investmentRate : String → Option ℚ
  | "mutual_fund" => some 12
  | "fixed_deposit" => some (13 / 2)
  | "equity" => some 15
  | "bonds" => some (15 / 2)
  | "gold" => some 8
  | _ => none

/-- Modelled from the spec (§4.4): simple interest over the term,
`expected_return = amount * annual_rate/100 * duration_months/12`. -/
def expectedReturnOf (amount rate : ℚ) (durationMonths : Int) : ℚ :=
  amount * rate / 100 * durationMonths / 12

/-- Modelled from the spec (§4.4):
`create(account_id, investment_type, amount, duration_months)`.
Preconditions: `amount > 0`, `duration_months > 0`, known
`investment_type`.  Persists the Investment with
`maturity = start + duration_months` and the computed expected return,
status `active`. -/
def investCreate (s : BankState) (accountId : Nat) (investmentType : String)
    (amount : ℚ) (durationMonths : Int) (start : ℚ) :
    BankState × Except Err Investment :=
  if amount ≤ 0 then (s, .error .validation)
  else if durationMonths ≤ 0 then (s, .error .validation)
  else
    match investmentRate investmentType with
    | none => (s, .error .validation)
    | some rate =>
      let inv : Investment :=
        ⟨accountId, investmentType, amount, durationMonths, start,
         start + durationMonths, expectedReturnOf amount rate durationMonths,
         "active"⟩
      ({ s with investments := s.investments ++ [inv] }, .ok inv)

/-- Modelled from the spec (§4.4): clamp to the unit interval. -/
def clamp01 (q : ℚ) : ℚ := max 0 (min 1 q)

/-- Modelled from the spec (§4.4):
`elapsed_fraction = clamp((now - start)/(maturity - start), 0, 1)`. -/
def elapsedFraction (start maturity now : ℚ) : ℚ :=
  clamp01 ((now - start) / (maturity - start))

/-- Modelled from the spec (§4.4):
`current_value = amount + expected_return * elapsed_fraction`, computed on
read at time `now`. -/
def currentValue (amount expReturn start maturity now : ℚ) : ℚ :=
  amount + expReturn * elapsedFraction start maturity now

/-! ## Front-end product lookup tables (from `src/frontend/src/App.js`)

JavaScript object lookup on a missing key yields `undefined`; we embed the
two object literals as `Option`-valued lookups, `none` playing the role of
`undefined`. -/

/-- Shape of the entries of `investmentOptions` in `App.js`. -/
structure InvestmentOption where
  name : String
  icon : String
  returns : String
  deriving DecidableEq, Repr

/-- Shape of the entries of `loanTypes` in `App.js`. -/
structure LoanTypeInfo where
  name : String
  icon : String
  rate : String
  deriving DecidableEq, Repr

/-- The `investmentOptions` object literal of `App.js` (lines 433–439),
as a partial lookup. -/
def investmentOptions : String → Option InvestmentOption
  | "mutual_fund" => some ⟨"Mutual Fund", "📈", "12%"⟩
  | "fixed_deposit" => some ⟨"Fixed Deposit", "🏦", "6.5%"⟩
  | "equity" => some ⟨"Equity", "📊", "15%"⟩
  | "bonds" => some ⟨"Government Bonds", "💎", "7.5%"⟩
  | "gold" => some ⟨"Digital Gold", "🥇", "8%"⟩
  | _ => none

/-- The `loanTypes` object literal of `App.js` (lines 657–663), as a
partial lookup. -/
def loanTypes : String → Option LoanTypeInfo
  | "personal" => some ⟨"Personal Loan", "💳", "10.5%"⟩
  | "home" => some ⟨"Home Loan", "🏠", "8.5%"⟩
  | "car" => some ⟨"Car Loan", "🚗", "9.5%"⟩
  | "education" => some ⟨"Education Loan", "🎓", "8.0%"⟩
  | "business" => some ⟨"Business Loan", "🏢", "11.0%"⟩
  | _ => none

/-- The field accesses the `Investments` list rendering performs on the
looked-up entry (`option.icon`, `option.name`, `option.returns`,
App.js lines 546–555): `none` models the JavaScript `TypeError` raised
when the lookup returned `undefined`. -/
def renderInvestmentCard (investment_type : String) :
    Option (String × String × String) :=
  match investmentOptions investment_type with
  | none => none
  | some o => some (o.icon, o.name, o.returns)

/-- The field accesses the `Loans` list rendering performs on the
looked-up entry (`type.icon`, `type.name`, App.js lines 803–810). -/
def renderLoanCard (loan_type : String) : Option (String × String) :=
  match loanTypes loan_type with
  | none => none
  | some t => some (t.icon, t.name)

/-! ## Derived notions used by the invariants -/

/-- The balance contributed by one ledger slot (0 for a missing account). -/
def optBal : Option Account → Int
  | none => 0
  | some a => a.balance

/-- The sum of all account balances over the account-id set `S`. -/
def totalBalance (L : Ledger) (S : Finset Nat) : Int :=
  ∑ i ∈ S, optBal (L i)

/-- `S` covers every account id present in the ledger. -/
def ledgerSupported (L : Ledger) (S : Finset Nat) : Prop :=
  ∀ i, (L i).isSome = true → i ∈ S

/-- Every existing account has a non-negative balance (§3: no overdraft). -/
def nonnegLedger (L : Ledger) : Prop :=
  ∀ i a, L i = some a → 0 ≤ a.balance

/-- A transfer request, for stating properties of request sequences. -/
structure TransferReq where
  sender : Nat
  recipient : Nat
  amount : Int
  description : String

/-- Run a sequence of transfer requests; a failed transfer leaves the
state unchanged (§4.2), so this covers any sequence of successful
transfers interleaved with rejected ones. -/
def runTransfers (s : BankState) : List TransferReq → BankState
  | [] => s
  | r :: rs => runTransfers (transfer s r.sender r.recipient r.amount r.description).1 rs

/-- A two-account demonstration ledger. -/
def demoLedger : Ledger := fun i =>
  if i = 1 then some ⟨"INR", 10000, 0⟩
  else if i = 2 then some ⟨"INR", 500, 0⟩
  else none

/-- A demonstration state over `demoLedger` with empty record tables. -/
def demoState : BankState := ⟨demoLedger, [], [], []⟩

/-! ## Ledger Store lemmas -/

theorem apply_delta_of_not_found {L : Ledger} {id : Nat} (δ : Int) (ev : Nat)
    (h : L id = none) : apply_delta L id δ ev = (L, .error .notFound) := by
  simp [apply_delta, h]

theorem apply_delta_of_conflict {L : Ledger} {id : Nat} {a : Account} (δ : Int)
    {ev : Nat} (h : L id = some a) (hv : a.version ≠ ev) :
    apply_delta L id δ ev = (L, .error .concurrencyConflict) := by
  simp only [apply_delta, h]
  rw [if_pos hv]

theorem apply_delta_of_insufficient {L : Ledger} {id : Nat} {a : Account}
    {δ : Int} {ev : Nat} (h : L id = some a) (hv : a.version = ev)
    (hb : a.balance + δ < 0) :
    apply_delta L id δ ev = (L, .error .insufficientFunds) := by
  simp only [apply_delta, h]
  rw [if_neg (by simp [hv]), if_pos hb]

theorem apply_delta_of_ok {L : Ledger} {id : Nat} {a : Account} {δ : Int}
    {ev : Nat} (h : L id = some a) (hv : a.version = ev)
    (hb : 0 ≤ a.balance + δ) :
    apply_delta L id δ ev =
      (Function.update L id (some ⟨a.currency, a.balance + δ, a.version + 1⟩),
       .ok (a.version + 1)) := by
  simp only [apply_delta, h]
  rw [if_neg (by simp [hv]), if_neg (not_lt.mpr hb)]

theorem apply_delta_ok_inv {L : Ledger} {id : Nat} {δ : Int} {ev : Nat}
    {v : Nat} (h : (apply_delta L id δ ev).2 = .ok v) :
    ∃ a, L id = some a ∧ a.version = ev ∧ 0 ≤ a.balance + δ ∧
      v = a.version + 1 ∧
      (apply_delta L id δ ev).1 =
        Function.update L id (some ⟨a.currency, a.balance + δ, a.version + 1⟩) := by
  cases hL : L id with
  | none => rw [apply_delta_of_not_found δ ev hL] at h; simp at h
  | some a =>
    by_cases hv : a.version = ev
    · by_cases hb : 0 ≤ a.balance + δ
      · rw [apply_delta_of_ok hL hv hb] at h
        refine ⟨a, rfl, hv, hb, ?_, ?_⟩
        · simpa using h.symm
        · rw [apply_delta_of_ok hL hv hb]
      · rw [apply_delta_of_insufficient hL hv (not_le.mp hb)] at h; simp at h
    · rw [apply_delta_of_conflict δ hL hv] at h; simp at h

theorem apply_delta_err_fst {L : Ledger} {id : Nat} {δ : Int} {ev : Nat}
    {e : Err} (h : (apply_delta L id δ ev).2 = .error e) :
    (apply_delta L id δ ev).1 = L := by
  cases hL : L id with
  | none => rw [apply_delta_of_not_found δ ev hL]
  | some a =>
    by_cases hv : a.version = ev
    · by_cases hb : 0 ≤ a.balance + δ
      · rw [apply_delta_of_ok hL hv hb] at h; simp at h
      · rw [apply_delta_of_insufficient hL hv (not_le.mp hb)]
    · rw [apply_delta_of_conflict δ hL hv]

/-! ## Transaction Processor lemmas -/

theorem transfer_of_nonpos {s : BankState} {a b : Nat} {amt : Int} (d : String)
    (h : amt ≤ 0) : transfer s a b amt d = (s, .error .validation) := by
  simp [transfer, h]

theorem transfer_of_self {s : BankState} {a b : Nat} {amt : Int} (d : String)
    (h1 : ¬ amt ≤ 0) (h : a = b) : transfer s a b amt d = (s, .error .validation) := by
  simp [transfer, h1, h]

theorem transfer_of_sender_missing {s : BankState} {a b : Nat} {amt : Int} (d : String)
    (h1 : ¬ amt ≤ 0) (h2 : a ≠ b) (h : s.ledger a = none) :
    transfer s a b amt d = (s, .error .notFound) := by
  unfold transfer
  rw [if_neg h1, if_neg h2]
  simp only [h]

theorem transfer_of_recipient_missing {s : BankState} {a b : Nat} {amt : Int} (d : String)
    {sa : Account} (h1 : ¬ amt ≤ 0) (h2 : a ≠ b) (hsa : s.ledger a = some sa)
    (h : s.ledger b = none) :
    transfer s a b amt d = (s, .error .notFound) := by
  unfold transfer
  rw [if_neg h1, if_neg h2]
  simp only [hsa, h]

theorem transfer_of_currency {s : BankState} {a b : Nat} {amt : Int} (d : String)
    {sa ra : Account} (h1 : ¬ amt ≤ 0) (h2 : a ≠ b) (hsa : s.ledger a = some sa)
    (hra : s.ledger b = some ra) (h : sa.currency ≠ ra.currency) :
    transfer s a b amt d = (s, .error .validation) := by
  unfold transfer
  rw [if_neg h1, if_neg h2]
  simp only [hsa, hra]
  rw [if_pos h]

theorem transfer_of_insufficient {s : BankState} {a b : Nat} {amt : Int} (d : String)
    {sa ra : Account} (h1 : ¬ amt ≤ 0) (h2 : a ≠ b) (hsa : s.ledger a = some sa)
    (hra : s.ledger b = some ra) (hcur : sa.currency = ra.currency)
    (h : sa.balance < amt) :
    transfer s a b amt d = (s, .error .insufficientFunds) := by
  unfold transfer
  rw [if_neg h1, if_neg h2]
  simp only [hsa, hra]
  rw [if_neg (by simp [hcur]), if_pos h]

theorem transfer_of_recipient_negative {s : BankState} {a b : Nat} {amt : Int} (d : String)
    {sa ra : Account} (h1 : ¬ amt ≤ 0) (h2 : a ≠ b) (hsa : s.ledger a = some sa)
    (hra : s.ledger b = some ra) (hcur : sa.currency = ra.currency)
    (hfund : ¬ sa.balance < amt) (hrb : ra.balance + amt < 0) :
    transfer s a b amt d = (s, .error .insufficientFunds) := by
  unfold transfer
  rw [if_neg h1, if_neg h2]
  simp only [hsa, hra]
  rw [if_neg (by simp [hcur]), if_neg hfund]
  rw [apply_delta_of_ok hsa rfl (by omega)]
  dsimp only
  have hb' : Function.update s.ledger a
      (some ⟨sa.currency, sa.balance + -amt, sa.version + 1⟩) b = some ra := by
    rw [Function.update_noteq (Ne.symm h2)]; exact hra
  rw [apply_delta_of_insufficient hb' rfl hrb]

theorem transfer_of_success {s : BankState} {a b : Nat} {amt : Int} (d : String)
    {sa ra : Account} (h1 : ¬ amt ≤ 0) (h2 : a ≠ b) (hsa : s.ledger a = some sa)
    (hra : s.ledger b = some ra) (hcur : sa.currency = ra.currency)
    (hfund : ¬ sa.balance < amt) (hrb : 0 ≤ ra.balance + amt) :
    transfer s a b amt d =
      ({ s with
          ledger := Function.update
            (Function.update s.ledger a
              (some ⟨sa.currency, sa.balance + -amt, sa.version + 1⟩)) b
            (some ⟨ra.currency, ra.balance + amt, ra.version + 1⟩),
          transactions := s.transactions ++ [⟨a, b, amt, d, .completed⟩] },
       .ok ⟨a, b, amt, d, .completed⟩) := by
  unfold transfer
  rw [if_neg h1, if_neg h2]
  simp only [hsa, hra]
  rw [if_neg (by simp [hcur]), if_neg hfund]
  rw [apply_delta_of_ok hsa rfl (by omega)]
  dsimp only
  have hb' : Function.update s.ledger a
      (some ⟨sa.currency, sa.balance + -amt, sa.version + 1⟩) b = some ra := by
    rw [Function.update_noteq (Ne.symm h2)]; exact hra
  rw [apply_delta_of_ok hb' rfl hrb]

theorem transfer_ok_inv {s : BankState} {a b : Nat} {amt : Int} {d : String}
    {tx : Transaction} (h : (transfer s a b amt d).2 = .ok tx) :
    ∃ sa ra, ¬ amt ≤ 0 ∧ a ≠ b ∧ s.ledger a = some sa ∧ s.ledger b = some ra ∧
      sa.currency = ra.currency ∧ ¬ sa.balance < amt ∧ 0 ≤ ra.balance + amt ∧
      tx = ⟨a, b, amt, d, .completed⟩ ∧
      transfer s a b amt d =
        ({ s with
            ledger := Function.update
              (Function.update s.ledger a
                (some ⟨sa.currency, sa.balance + -amt, sa.version + 1⟩)) b
              (some ⟨ra.currency, ra.balance + amt, ra.version + 1⟩),
            transactions := s.transactions ++ [⟨a, b, amt, d, .completed⟩] },
         .ok ⟨a, b, amt, d, .completed⟩) := by
  by_cases h1 : amt ≤ 0
  · rw [transfer_of_nonpos d h1] at h; simp at h
  by_cases h2 : a = b
  · rw [transfer_of_self d h1 h2] at h; simp at h
  cases hsa : s.ledger a with
  | none => rw [transfer_of_sender_missing d h1 h2 hsa] at h; simp at h
  | some sa =>
  cases hra : s.ledger b with
  | none => rw [transfer_of_recipient_missing d h1 h2 hsa hra] at h; simp at h
  | some ra =>
  by_cases hcur : sa.currency = ra.currency
  · by_cases hfund : sa.balance < amt
    · rw [transfer_of_insufficient d h1 h2 hsa hra hcur hfund] at h; simp at h
    · by_cases hrb : 0 ≤ ra.balance + amt
      · rw [transfer_of_success d h1 h2 hsa hra hcur hfund hrb] at h
        have htx : tx = ⟨a, b, amt, d, .completed⟩ := (Except.ok.inj h).symm
        subst htx
        exact ⟨sa, ra, h1, h2, rfl, rfl, hcur, hfund, hrb, rfl,
          transfer_of_success d h1 h2 hsa hra hcur hfund hrb⟩
      · rw [transfer_of_recipient_negative d h1 h2 hsa hra hcur hfund
          (by omega)] at h
        simp at h
  · rw [transfer_of_currency d h1 h2 hsa hra hcur] at h; simp at h

theorem transfer_err_fst {s : BankState} {a b : Nat} {amt : Int} {d : String}
    {e : Err} (h : (transfer s a b amt d).2 = .error e) :
    (transfer s a b amt d).1 = s := by
  by_cases h1 : amt ≤ 0
  · rw [transfer_of_nonpos d h1]
  by_cases h2 : a = b
  · rw [transfer_of_self d h1 h2]
  cases hsa : s.ledger a with
  | none => rw [transfer_of_sender_missing d h1 h2 hsa]
  | some sa =>
  cases hra : s.ledger b with
  | none => rw [transfer_of_recipient_missing d h1 h2 hsa hra]
  | some ra =>
  by_cases hcur : sa.currency = ra.currency
  · by_cases hfund : sa.balance < amt
    · rw [transfer_of_insufficient d h1 h2 hsa hra hcur hfund]
    · by_cases hrb : 0 ≤ ra.balance + amt
      · rw [transfer_of_success d h1 h2 hsa hra hcur hfund hrb] at h
        simp at h
      · rw [transfer_of_recipient_negative d h1 h2 hsa hra hcur hfund (by omega)]
  · rw [transfer_of_currency d h1 h2 hsa hra hcur]

/-! ## Conservation of money -/

theorem optBal_update (L : Ledger) (i : Nat) (v : Option Account) (x : Nat) :
    optBal (Function.update L i v x) =
      Function.update (fun y => optBal (L y)) i (optBal v) x := by
  rcases eq_or_ne x i with rfl | hx
  · simp
  · simp [Function.update_noteq hx]

theorem totalBalance_update {S : Finset Nat} {i : Nat} (L : Ledger)
    (v : Option Account) (hi : i ∈ S) :
    totalBalance (Function.update L i v) S =
      totalBalance L S - optBal (L i) + optBal v := by
  unfold totalBalance
  rw [Finset.sum_congr rfl fun x _ => optBal_update L i v x,
      Finset.sum_update_of_mem hi]
  rw [Finset.sum_eq_sum_diff_singleton_add hi (fun x => optBal (L x))]
  ring

theorem transfer_totalBalance {s : BankState} {a b : Nat} {amt : Int}
    {d : String} {S : Finset Nat} (hsupp : ledgerSupported s.ledger S) :
    totalBalance ((transfer s a b amt d).1.ledger) S =
      totalBalance s.ledger S := by
  cases h2 : (transfer s a b amt d).2 with
  | error e => rw [transfer_err_fst h2]
  | ok tx =>
    obtain ⟨sa, ra, h1, hab, hsa, hra, hcur, hfund, hrb, htx, heq⟩ :=
      transfer_ok_inv h2
    have hled : (transfer s a b amt d).1.ledger =
        Function.update (Function.update s.ledger a
          (some ⟨sa.currency, sa.balance + -amt, sa.version + 1⟩)) b
          (some ⟨ra.currency, ra.balance + amt, ra.version + 1⟩) := by rw [heq]
    rw [hled]
    have ha : a ∈ S := hsupp a (by rw [hsa]; rfl)
    have hb : b ∈ S := hsupp b (by rw [hra]; rfl)
    rw [totalBalance_update _ _ hb, totalBalance_update _ _ ha]
    rw [Function.update_noteq (Ne.symm hab), hsa, hra]
    simp only [optBal]
    omega

theorem transfer_supported {s : BankState} {a b : Nat} {amt : Int}
    {d : String} {S : Finset Nat} (hsupp : ledgerSupported s.ledger S) :
    ledgerSupported ((transfer s a b amt d).1.ledger) S := by
  cases h2 : (transfer s a b amt d).2 with
  | error e => rw [transfer_err_fst h2]; exact hsupp
  | ok tx =>
    obtain ⟨sa, ra, h1, hab, hsa, hra, hcur, hfund, hrb, htx, heq⟩ :=
      transfer_ok_inv h2
    have hled : (transfer s a b amt d).1.ledger =
        Function.update (Function.update s.ledger a
          (some ⟨sa.currency, sa.balance + -amt, sa.version + 1⟩)) b
          (some ⟨ra.currency, ra.balance + amt, ra.version + 1⟩) := by rw [heq]
    rw [hled]
    intro i hi
    rcases eq_or_ne i b with rfl | hib
    · exact hsupp _ (by rw [hra]; rfl)
    rcases eq_or_ne i a with rfl | hia
    · exact hsupp _ (by rw [hsa]; rfl)
    · apply hsupp
      rwa [Function.update_noteq hib, Function.update_noteq hia] at hi

/-! ## Non-negativity and Loan Engine lemmas -/

theorem nonneg_update {L : Ledger} {i : Nat} {v : Account}
    (h : nonnegLedger L) (hv : 0 ≤ v.balance) :
    nonnegLedger (Function.update L i (some v)) := by
  intro j a hj
  rcases eq_or_ne j i with rfl | hji
  · rw [Function.update_same] at hj
    exact (Option.some.inj hj) ▸ hv
  · rw [Function.update_noteq hji] at hj
    exact h j a hj

theorem apply_delta_nonneg {L : Ledger} {id : Nat} {δ : Int} {ev : Nat}
    (h : nonnegLedger L) : nonnegLedger (apply_delta L id δ ev).1 := by
  cases h2 : (apply_delta L id δ ev).2 with
  | error e => rw [apply_delta_err_fst h2]; exact h
  | ok v =>
    obtain ⟨a, hL, hv, hb, hveq, hfst⟩ := apply_delta_ok_inv h2
    rw [hfst]
    exact nonneg_update h hb

theorem transfer_nonneg {s : BankState} {a b : Nat} {amt : Int} {d : String}
    (h : nonnegLedger s.ledger) :
    nonnegLedger ((transfer s a b amt d).1.ledger) := by
  cases h2 : (transfer s a b amt d).2 with
  | error e => rw [transfer_err_fst h2]; exact h
  | ok tx =>
    obtain ⟨sa, ra, h1, hab, hsa, hra, hcur, hfund, hrb, htx, heq⟩ :=
      transfer_ok_inv h2
    have hled : (transfer s a b amt d).1.ledger =
        Function.update (Function.update s.ledger a
          (some ⟨sa.currency, sa.balance + -amt, sa.version + 1⟩)) b
          (some ⟨ra.currency, ra.balance + amt, ra.version + 1⟩) := by rw [heq]
    rw [hled]
    exact nonneg_update
      (nonneg_update h (show (0:Int) ≤ sa.balance + -amt by omega))
      (show (0:Int) ≤ ra.balance + amt from hrb)

theorem loanApply_of_ok {s : BankState} {acc : Nat} {lt : String} {amt : ℚ}
    {p : String} {n : Int} {inc : ℚ} {rate : ℚ}
    (h1 : ¬ amt ≤ 0) (h2 : ¬ n ≤ 0) (h3 : ¬ inc ≤ 0)
    (hr : loanRate lt = some rate) :
    loanApply s acc lt amt p n inc =
      ({ s with loans := s.loans ++
          [⟨acc, lt, amt, n, inc, rate, emi amt rate n, p, "applied"⟩] },
       .ok ⟨acc, lt, amt, n, inc, rate, emi amt rate n, p, "applied"⟩) := by
  unfold loanApply
  rw [if_neg h1, if_neg h2, if_neg h3, hr]

theorem loanApply_ok_inv {s : BankState} {acc : Nat} {lt : String} {amt : ℚ}
    {p : String} {n : Int} {inc : ℚ} {ln : Loan}
    (h : (loanApply s acc lt amt p n inc).2 = .ok ln) :
    ∃ rate, ¬ amt ≤ 0 ∧ ¬ n ≤ 0 ∧ ¬ inc ≤ 0 ∧ loanRate lt = some rate ∧
      ln = ⟨acc, lt, amt, n, inc, rate, emi amt rate n, p, "applied"⟩ ∧
      (loanApply s acc lt amt p n inc).1 = { s with loans := s.loans ++ [ln] } := by
  by_cases h1 : amt ≤ 0
  · rw [show loanApply s acc lt amt p n inc = (s, .error .validation) by
      unfold loanApply; rw [if_pos h1]] at h
    simp at h
  by_cases h2 : n ≤ 0
  · rw [show loanApply s acc lt amt p n inc = (s, .error .validation) by
      unfold loanApply; rw [if_neg h1, if_pos h2]] at h
    simp at h
  by_cases h3 : inc ≤ 0
  · rw [show loanApply s acc lt amt p n inc = (s, .error .validation) by
      unfold loanApply; rw [if_neg h1, if_neg h2, if_pos h3]] at h
    simp at h
  cases hr : loanRate lt with
  | none =>
    rw [show loanApply s acc lt amt p n inc = (s, .error .validation) by
      unfold loanApply; rw [if_neg h1, if_neg h2, if_neg h3, hr]] at h
    simp at h
  | some rate =>
    rw [loanApply_of_ok h1 h2 h3 hr] at h
    have hln := (Except.ok.inj h).symm
    subst hln
    exact ⟨rate, h1, h2, h3, rfl, rfl, by rw [loanApply_of_ok h1 h2 h3 hr]⟩

/-! ## Investment Engine and validation lemmas -/

theorem investCreate_of_ok {s : BankState} {acc : Nat} {it : String}
    {amt : ℚ} {n : Int} {st : ℚ} {rate : ℚ}
    (h1 : ¬ amt ≤ 0) (h2 : ¬ n ≤ 0) (hr : investmentRate it = some rate) :
    investCreate s acc it amt n st =
      ({ s with investments := s.investments ++
          [⟨acc, it, amt, n, st, st + n, expectedReturnOf amt rate n, "active"⟩] },
       .ok ⟨acc, it, amt, n, st, st + n, expectedReturnOf amt rate n, "active"⟩) := by
  unfold investCreate
  rw [if_neg h1, if_neg h2, hr]

theorem investCreate_ok_inv {s : BankState} {acc : Nat} {it : String}
    {amt : ℚ} {n : Int} {st : ℚ} {inv : Investment}
    (h : (investCreate s acc it amt n st).2 = .ok inv) :
    ∃ rate, ¬ amt ≤ 0 ∧ ¬ n ≤ 0 ∧ investmentRate it = some rate ∧
      inv = ⟨acc, it, amt, n, st, st + n, expectedReturnOf amt rate n, "active"⟩ ∧
      (investCreate s acc it amt n st).1 =
        { s with investments := s.investments ++ [inv] } := by
  by_cases h1 : amt ≤ 0
  · rw [show investCreate s acc it amt n st = (s, .error .validation) by
      unfold investCreate; rw [if_pos h1]] at h
    simp at h
  by_cases h2 : n ≤ 0
  · rw [show investCreate s acc it amt n st = (s, .error .validation) by
      unfold investCreate; rw [if_neg h1, if_pos h2]] at h
    simp at h
  cases hr : investmentRate it with
  | none =>
    rw [show investCreate s acc it amt n st = (s, .error .validation) by
      unfold investCreate; rw [if_neg h1, if_neg h2, hr]] at h
    simp at h
  | some rate =>
    rw [investCreate_of_ok h1 h2 hr] at h
    have hinv := (Except.ok.inj h).symm
    subst hinv
    exact ⟨rate, h1, h2, rfl, rfl, by rw [investCreate_of_ok h1 h2 hr]⟩

theorem loanApply_ledger (s : BankState) (acc : Nat) (lt : String) (amt : ℚ)
    (p : String) (n : Int) (inc : ℚ) :
    (loanApply s acc lt amt p n inc).1.ledger = s.ledger := by
  unfold loanApply
  repeat' split
  all_goals rfl

theorem investCreate_ledger (s : BankState) (acc : Nat) (it : String)
    (amt : ℚ) (n : Int) (st : ℚ) :
    (investCreate s acc it amt n st).1.ledger = s.ledger := by
  unfold investCreate
  repeat' split
  all_goals rfl

theorem loanApply_validation {s : BankState} {acc : Nat} {lt : String}
    {amt : ℚ} {p : String} {n : Int} {inc : ℚ}
    (h : amt ≤ 0 ∨ n ≤ 0 ∨ inc ≤ 0 ∨ loanRate lt = none) :
    loanApply s acc lt amt p n inc = (s, .error .validation) := by
  unfold loanApply
  by_cases h1 : amt ≤ 0
  · rw [if_pos h1]
  rw [if_neg h1]
  by_cases h2 : n ≤ 0
  · rw [if_pos h2]
  rw [if_neg h2]
  by_cases h3 : inc ≤ 0
  · rw [if_pos h3]
  rw [if_neg h3]
  have h4 : loanRate lt = none := by tauto
  rw [h4]

theorem investCreate_validation {s : BankState} {acc : Nat} {it : String}
    {amt : ℚ} {n : Int} {st : ℚ}
    (h : amt ≤ 0 ∨ n ≤ 0 ∨ investmentRate it = none) :
    investCreate s acc it amt n st = (s, .error .validation) := by
  unfold investCreate
  by_cases h1 : amt ≤ 0
  · rw [if_pos h1]
  rw [if_neg h1]
  by_cases h2 : n ≤ 0
  · rw [if_pos h2]
  rw [if_neg h2]
  have h3 : investmentRate it = none := by tauto
  rw [h3]

theorem loanRate_nonneg {lt : String} {rate : ℚ} (h : loanRate lt = some rate) :
    0 ≤ rate := by
  unfold loanRate at h
  split at h <;> simp_all <;> norm_num [← h]

theorem investmentRate_nonneg {it : String} {rate : ℚ}
    (h : investmentRate it = some rate) : 0 ≤ rate := by
  unfold investmentRate at h
  split at h <;> simp_all <;> norm_num [← h]

theorem currentValue_before {A R start maturity now : ℚ}
    (h : start < maturity) (hnow : now ≤ start) :
    currentValue A R start maturity now = A := by
  unfold currentValue elapsedFraction clamp01
  have hd : (0:ℚ) < maturity - start := by linarith
  have hx : (now - start) / (maturity - start) ≤ 0 := by
    apply div_nonpos_iff.mpr
    right
    exact ⟨by linarith, le_of_lt hd⟩
  rw [min_eq_right (hx.trans zero_le_one), max_eq_left hx]
  ring

theorem currentValue_after {A R start maturity now : ℚ}
    (h : start < maturity) (hnow : maturity ≤ now) :
    currentValue A R start maturity now = A + R := by
  unfold currentValue elapsedFraction clamp01
  have hd : (0:ℚ) < maturity - start := by linarith
  have hx : 1 ≤ (now - start) / (maturity - start) :=
    (one_le_div hd).mpr (by linarith)
  rw [min_eq_left hx, max_eq_right zero_le_one]
  ring

theorem currentValue_mono {A R start maturity now1 now2 : ℚ}
    (h : start < maturity) (hR : 0 ≤ R) (h12 : now1 ≤ now2) :
    currentValue A R start maturity now1 ≤ currentValue A R start maturity now2 := by
  unfold currentValue elapsedFraction clamp01
  have hd : (0:ℚ) < maturity - start := by linarith
  have hx : (now1 - start) / (maturity - start) ≤ (now2 - start) / (maturity - start) :=
    (div_le_div_iff_of_pos_right hd).mpr (by linarith)
  have hcl : max 0 (min 1 ((now1 - start) / (maturity - start))) ≤
      max 0 (min 1 ((now2 - start) / (maturity - start))) :=
    max_le_max le_rfl (min_le_min le_rfl hx)
  exact add_le_add_left (mul_le_mul_of_nonneg_left hcl hR) A

/-! ## Front-end lookup lemmas -/

theorem investmentOptions_isSome (k : String) :
    (investmentOptions k).isSome = true ↔
      k = "mutual_fund" ∨ k = "fixed_deposit" ∨ k = "equity" ∨ k = "bonds" ∨
      k = "gold" := by
  unfold investmentOptions
  split <;> simp_all

theorem loanTypes_isSome (k : String) :
    (loanTypes k).isSome = true ↔
      k = "personal" ∨ k = "home" ∨ k = "car" ∨ k = "education" ∨
      k = "business" := by
  unfold loanTypes
  split <;> simp_all

theorem renderInvestmentCard_none {k : String}
    (h : investmentOptions k = none) : renderInvestmentCard k = none := by
  unfold renderInvestmentCard
  rw [h]

theorem renderLoanCard_none {k : String} (h : loanTypes k = none) :
    renderLoanCard k = none := by
  unfold renderLoanCard
  rw [h]

theorem renderInvestmentCard_some {k : String} {o : InvestmentOption}
    (h : investmentOptions k = some o) :
    renderInvestmentCard k = some (o.icon, o.name, o.returns) := by
  unfold renderInvestmentCard
  rw [h]

theorem renderLoanCard_some {k : String} {t : LoanTypeInfo}
    (h : loanTypes k = some t) : renderLoanCard k = some (t.icon, t.name) := by
  unfold renderLoanCard
  rw [h]

/-! ## Claim theorems -/

/-- C1: for every successful `transfer(sender, recipient, amount,
description)`, the sender's balance decreases by `amount`, the
recipient's balance increases by `amount`, and exactly one `completed`
Transaction is appended. -/
theorem transfer_success_spec (s : BankState) (a b : Nat) (amt : Int)
    (d : String) (tx : Transaction) (sa ra : Account)
    (hsa : s.ledger a = some sa) (hra : s.ledger b = some ra)
    (h : (transfer s a b amt d).2 = .ok tx) :
    (∃ sa', (transfer s a b amt d).1.ledger a = some sa' ∧
       sa'.balance = sa.balance - amt) ∧
    (∃ ra', (transfer s a b amt d).1.ledger b = some ra' ∧
       ra'.balance = ra.balance + amt) ∧
    (transfer s a b amt d).1.transactions = s.transactions ++ [tx] ∧
    tx.status = .completed := by
  obtain ⟨sa0, ra0, h1, hab, hsa0, hra0, hcur, hfund, hrb, htx, heq⟩ :=
    transfer_ok_inv h
  have e1 : sa0 = sa := Option.some.inj (hsa0.symm.trans hsa)
  have e2 : ra0 = ra := Option.some.inj (hra0.symm.trans hra)
  rw [e1, e2] at heq
  have hled : (transfer s a b amt d).1.ledger =
      Function.update (Function.update s.ledger a
        (some ⟨sa.currency, sa.balance + -amt, sa.version + 1⟩)) b
        (some ⟨ra.currency, ra.balance + amt, ra.version + 1⟩) := by rw [heq]
  have htr : (transfer s a b amt d).1.transactions =
      s.transactions ++ [⟨a, b, amt, d, .completed⟩] := by rw [heq]
  refine ⟨⟨⟨sa.currency, sa.balance + -amt, sa.version + 1⟩, ?_, ?_⟩,
    ⟨⟨ra.currency, ra.balance + amt, ra.version + 1⟩, ?_, ?_⟩, ?_, ?_⟩
  · rw [hled, Function.update_noteq hab, Function.update_same]
  · show sa.balance + -amt = sa.balance - amt
    omega
  · rw [hled, Function.update_same]
  · rfl
  · rw [htr, htx]
  · rw [htx]

/-- C1 witness: the spec's scenario — balance 10000 transfers 2500 with
description "rent": sender ends at 7500, recipient gains 2500, one
`completed` Transaction. -/
theorem transfer_success_spec_witness :
    demoState.ledger 1 = some ⟨"INR", 10000, 0⟩ ∧
    (transfer demoState 1 2 2500 "rent").1.ledger 1 = some ⟨"INR", 7500, 1⟩ ∧
    (transfer demoState 1 2 2500 "rent").1.transactions =
      [⟨1, 2, 2500, "rent", TxStatus.completed⟩] ∧
    (∃ sa', (transfer demoState 1 2 2500 "rent").1.ledger 1 = some sa' ∧
       sa'.balance = 10000 - 2500) :=
  ⟨rfl, by decide, by decide,
   (transfer_success_spec demoState 1 2 2500 "rent"
      ⟨1, 2, 2500, "rent", .completed⟩ ⟨"INR", 10000, 0⟩ ⟨"INR", 500, 0⟩
      rfl rfl rfl).1⟩

/-- C3: a transfer that fails any precondition or the funds check leaves
both accounts' balances and version counters unchanged (the whole ledger
is unchanged) and creates no Transaction record. -/
theorem transfer_failure_atomic (s : BankState) (a b : Nat) (amt : Int)
    (d : String) (e : Err) (h : (transfer s a b amt d).2 = .error e) :
    (transfer s a b amt d).1.ledger = s.ledger ∧
    (transfer s a b amt d).1.transactions = s.transactions := by
  rw [transfer_err_fst h]
  exact ⟨rfl, rfl⟩

/-- C3 witness: a transfer of 20000 from a balance of 10000 fails with
`InsufficientFunds` and changes nothing. -/
theorem transfer_failure_atomic_witness :
    (transfer demoState 1 2 20000 "x").2 = .error .insufficientFunds ∧
    (transfer demoState 1 2 20000 "x").1.ledger = demoState.ledger ∧
    (transfer demoState 1 2 20000 "x").1.transactions =
      demoState.transactions :=
  ⟨rfl, transfer_failure_atomic demoState 1 2 20000 "x" .insufficientFunds rfl⟩

/-- C4: `apply_delta` succeeds exactly when the expected version matches
and the resulting balance is ≥ 0, in which case it adds the delta,
increments the version and returns it; a version mismatch fails with
`ConcurrencyConflict` and a would-be-negative balance with
`InsufficientFunds`, both leaving the ledger unchanged. -/
theorem apply_delta_spec (L : Ledger) (id : Nat) (δ : Int) (ev : Nat)
    (a : Account) (ha : L id = some a) :
    ((apply_delta L id δ ev).2 = .ok (a.version + 1) ↔
      (a.version = ev ∧ 0 ≤ a.balance + δ)) ∧
    (a.version = ev → 0 ≤ a.balance + δ →
      (apply_delta L id δ ev).1 id =
        some ⟨a.currency, a.balance + δ, a.version + 1⟩) ∧
    (a.version ≠ ev →
      apply_delta L id δ ev = (L, .error .concurrencyConflict)) ∧
    (a.version = ev → a.balance + δ < 0 →
      apply_delta L id δ ev = (L, .error .insufficientFunds)) := by
  refine ⟨⟨?_, ?_⟩, ?_, ?_, ?_⟩
  · intro h
    obtain ⟨a', hL, hv, hb, _, _⟩ := apply_delta_ok_inv h
    obtain rfl : a' = a := Option.some.inj (hL.symm.trans ha)
    exact ⟨hv, hb⟩
  · rintro ⟨hv, hb⟩
    rw [apply_delta_of_ok ha hv hb]
  · intro hv hb
    rw [apply_delta_of_ok ha hv hb]
    dsimp only
    rw [Function.update_same]
  · intro hv
    exact apply_delta_of_conflict δ ha hv
  · intro hv hb
    exact apply_delta_of_insufficient ha hv hb

/-- C4 witness: applying −2500 at the stored version 0 on a balance of
10000 succeeds and returns version 1. -/
theorem apply_delta_spec_witness :
    (apply_delta demoLedger 1 (-2500) 0).2 = .ok (0 + 1) :=
  (apply_delta_spec demoLedger 1 (-2500) 0 ⟨"INR", 10000, 0⟩ rfl).1.mpr
    ⟨rfl, by decide⟩

/-- C2: for any sequence of transfer requests (each successful transfer
moves money, each failed one changes nothing), the sum of all account
balances is unchanged. -/
theorem transfer_conservation (s : BankState) (S : Finset Nat)
    (rs : List TransferReq) (hsupp : ledgerSupported s.ledger S) :
    totalBalance ((runTransfers s rs).ledger) S = totalBalance s.ledger S := by
  induction rs generalizing s with
  | nil => rfl
  | cons r rs ih =>
    rw [runTransfers]
    rw [ih _ (transfer_supported hsupp), transfer_totalBalance hsupp]

/-- C2 witness: a two-transfer sequence on the demonstration ledger keeps
the total balance at 10500. -/
theorem transfer_conservation_witness :
    totalBalance ((runTransfers demoState
      [⟨1, 2, 2500, "rent"⟩, ⟨2, 1, 100, "back"⟩]).ledger) {1, 2} =
      totalBalance demoState.ledger {1, 2} ∧
    totalBalance demoState.ledger {1, 2} = 10500 := by
  constructor
  · apply transfer_conservation
    intro i hi
    unfold demoState demoLedger at hi
    by_cases h1 : i = 1
    · simp [h1]
    · by_cases h2 : i = 2
      · simp [h2]
      · simp [h1, h2] at hi
  · decide

/-- C5: every operation of the core preserves non-negativity of all
account balances: transfers, ledger deltas, loan applications and
investment creations keep every stored balance ≥ 0. -/
theorem ops_preserve_nonneg (s : BankState) (a b : Nat) (amt : Int)
    (d : String) (id : Nat) (δ : Int) (ev : Nat) (acc : Nat) (lt : String)
    (amtL : ℚ) (p : String) (n : Int) (inc : ℚ) (it : String) (amtI : ℚ)
    (m : Int) (st : ℚ) (h : nonnegLedger s.ledger) :
    nonnegLedger ((transfer s a b amt d).1.ledger) ∧
    nonnegLedger ((apply_delta s.ledger id δ ev).1) ∧
    nonnegLedger ((loanApply s acc lt amtL p n inc).1.ledger) ∧
    nonnegLedger ((investCreate s acc it amtI m st).1.ledger) := by
  refine ⟨transfer_nonneg h, apply_delta_nonneg h, ?_, ?_⟩
  · rw [loanApply_ledger]
    exact h
  · rw [investCreate_ledger]
    exact h

/-- C5 witness: the demonstration ledger is non-negative and stays so
after the scenario transfer. -/
theorem ops_preserve_nonneg_witness :
    nonnegLedger demoState.ledger ∧
    nonnegLedger ((transfer demoState 1 2 2500 "rent").1.ledger) := by
  have h : nonnegLedger demoState.ledger := by
    intro i a ha
    unfold demoState demoLedger at ha
    dsimp only at ha
    split at ha
    · cases Option.some.inj ha
      decide
    · split at ha
      · cases Option.some.inj ha
        decide
      · cases ha
  exact ⟨h, (ops_preserve_nonneg demoState 1 2 2500 "rent" 1 0 0 1 "personal"
    1 "p" 1 1 "gold" 1 1 0 h).1⟩

theorem emi_personal_example : emi 100000 (21 / 2) 12 = 8815 := by
  unfold emi roundHalfUp emiQ
  norm_num [show (12:Int).toNat = 12 from rfl]

/-- C6 counterexample: with the spec's exact formula and round-half-up,
`EMI(P = 100000, rate = 10.5%, n = 12)` is 8815 minor units, not 8816. -/
theorem emi_example_counterexample :
    emi 100000 (21 / 2) 12 = 8815 ∧ ¬ emi 100000 (21 / 2) 12 = 8816 :=
  ⟨emi_personal_example, by rw [emi_personal_example]; decide⟩

/-- C6 (amended): the persisted EMI follows the reducing-balance formula
(`P/n` when the monthly rate is zero) rounded half-up to the minor unit,
and `EMI(P = 100000, 10.5%, n = 12)` is 8815 minor units, the same on
every invocation. -/
theorem loan_emi_spec (s : BankState) (acc : Nat) (lt : String) (P : ℚ)
    (p : String) (n : Int) (inc : ℚ) (ln : Loan) (rate : ℚ)
    (hr : loanRate lt = some rate)
    (h : (loanApply s acc lt P p n inc).2 = .ok ln) :
    ln.interestRate = rate ∧
    (rate / 12 / 100 ≠ 0 →
      ln.emi = roundHalfUp (P * (rate / 12 / 100) *
        (1 + rate / 12 / 100) ^ n.toNat /
        ((1 + rate / 12 / 100) ^ n.toNat - 1))) ∧
    (rate / 12 / 100 = 0 → ln.emi = roundHalfUp (P / n)) ∧
    (lt = "personal" → P = 100000 → n = 12 → ln.emi = 8815) := by
  obtain ⟨rate0, h1, h2, h3, hr0, hln, _⟩ := loanApply_ok_inv h
  have e : rate0 = rate := Option.some.inj (hr0.symm.trans hr)
  rw [e] at hln
  subst hln
  refine ⟨rfl, ?_, ?_, ?_⟩
  · intro hrne
    show emi P rate n = _
    unfold emi emiQ
    rw [if_neg hrne]
  · intro hreq
    show emi P rate n = _
    unfold emi emiQ
    rw [if_pos hreq]
  · intro hlt hP hn
    subst hP
    subst hn
    rw [hlt] at hr
    have hr' : some ((21:ℚ) / 2) = some rate := hr
    have e2 : rate = 21 / 2 := (Option.some.inj hr').symm
    show emi 100000 rate 12 = 8815
    rw [e2]
    exact emi_personal_example

/-- C6 witness: the loan engine persists EMI 8815 for the spec's example
loan. -/
theorem loan_emi_spec_witness :
    (Loan.mk 1 "personal" 100000 12 50000 (21 / 2)
      (emi 100000 (21 / 2) 12) "rent" "applied").emi = 8815 :=
  (loan_emi_spec demoState 1 "personal" 100000 "rent" 12 50000 _ _ rfl
    rfl).2.2.2 rfl rfl rfl

/-- C7: every valid investment creation computes
`expected_return = amount * rate/100 * months/12` (simple interest) and
`maturity = start + duration_months`, with the five known types mapped to
their fixed annual rates. -/
theorem investment_create_spec (s : BankState) (acc : Nat) (it : String)
    (amt : ℚ) (n : Int) (st : ℚ) (inv : Investment) (rate : ℚ)
    (hr : investmentRate it = some rate)
    (h : (investCreate s acc it amt n st).2 = .ok inv) :
    inv.expectedReturn = amt * rate / 100 * n / 12 ∧
    inv.maturity = st + n ∧
    inv.start = st ∧
    0 < amt ∧ 0 < n ∧
    investmentRate "mutual_fund" = some 12 ∧
    investmentRate "fixed_deposit" = some (13 / 2) ∧
    investmentRate "equity" = some 15 ∧
    investmentRate "bonds" = some (15 / 2) ∧
    investmentRate "gold" = some 8 := by
  obtain ⟨rate0, h1, h2, hr0, hinv, _⟩ := investCreate_ok_inv h
  have e : rate0 = rate := Option.some.inj (hr0.symm.trans hr)
  rw [e] at hinv
  subst hinv
  exact ⟨rfl, rfl, rfl, not_le.mp h1, not_le.mp h2, rfl, rfl, rfl, rfl, rfl⟩

/-- C7 witness: a 1000-unit gold investment over 12 months expects a
return of 80 and matures 12 months after start. -/
theorem investment_create_spec_witness :
    expectedReturnOf 1000 8 12 = 1000 * 8 / 100 * ((12:Int) : ℚ) / 12 ∧
    expectedReturnOf 1000 8 12 = 80 :=
  ⟨(investment_create_spec demoState 1 "gold" 1000 12 0
      ⟨1, "gold", 1000, 12, 0, 0 + ((12:Int) : ℚ), expectedReturnOf 1000 8 12,
        "active"⟩ 8 rfl rfl).1,
   by norm_num [expectedReturnOf]⟩

/-- C8: for every created investment, the derived current value equals
the principal at or before start, equals principal plus expected return
at or after maturity, and is non-decreasing in the read time between. -/
theorem investment_valuation_spec (s : BankState) (acc : Nat) (it : String)
    (amt : ℚ) (n : Int) (st : ℚ) (inv : Investment)
    (h : (investCreate s acc it amt n st).2 = .ok inv)
    (now now1 now2 : ℚ) :
    (now ≤ inv.start →
      currentValue inv.amount inv.expectedReturn inv.start inv.maturity now =
        inv.amount) ∧
    (inv.maturity ≤ now →
      currentValue inv.amount inv.expectedReturn inv.start inv.maturity now =
        inv.amount + inv.expectedReturn) ∧
    (now1 ≤ now2 →
      currentValue inv.amount inv.expectedReturn inv.start inv.maturity now1 ≤
        currentValue inv.amount inv.expectedReturn inv.start inv.maturity now2) := by
  obtain ⟨rate, h1, h2, hr, hinv, _⟩ := investCreate_ok_inv h
  subst hinv
  have hn : (0:ℚ) < (n:ℚ) := by exact_mod_cast not_le.mp h2
  have hsm : st < st + (n:ℚ) := by linarith
  have hR : 0 ≤ expectedReturnOf amt rate n := by
    unfold expectedReturnOf
    have h1' : (0:ℚ) ≤ amt := le_of_lt (not_le.mp h1)
    have hr' : (0:ℚ) ≤ rate := investmentRate_nonneg hr
    apply div_nonneg _ (by norm_num : (0:ℚ) ≤ 12)
    apply mul_nonneg _ (le_of_lt hn)
    apply div_nonneg _ (by norm_num : (0:ℚ) ≤ 100)
    exact mul_nonneg h1' hr'
  exact ⟨fun hnow => currentValue_before hsm hnow,
         fun hnow => currentValue_after hsm hnow,
         fun h12 => currentValue_mono hsm hR h12⟩

/-- C8 witness: the gold investment is worth 1000 at start and
1000 + 80 after maturity. -/
theorem investment_valuation_spec_witness :
    currentValue 1000 (expectedReturnOf 1000 8 12) 0 (0 + ((12:Int) : ℚ)) 0 =
      1000 ∧
    currentValue 1000 (expectedReturnOf 1000 8 12) 0 (0 + ((12:Int) : ℚ)) 20 =
      1000 + expectedReturnOf 1000 8 12 :=
  ⟨(investment_valuation_spec demoState 1 "gold" 1000 12 0 _ rfl 0 0 0).1
      (le_refl 0),
   (investment_valuation_spec demoState 1 "gold" 1000 12 0 _ rfl 20 0 0).2.1
      (by norm_num)⟩

/-- C9: malformed or out-of-range input — a non-positive amount, an
unknown product type, or a zero or negative duration — is rejected with a
`ValidationError` and the state is returned unchanged, for transfers,
loan applications and investment creations alike. -/
theorem validation_rejection_spec (s : BankState) (a b : Nat) (amt : Int)
    (d : String) (acc : Nat) (lt : String) (amtL : ℚ) (p : String) (n : Int)
    (inc : ℚ) (it : String) (amtI : ℚ) (m : Int) (st : ℚ) :
    (amt ≤ 0 → transfer s a b amt d = (s, .error .validation)) ∧
    (amtL ≤ 0 ∨ n ≤ 0 ∨ inc ≤ 0 ∨ loanRate lt = none →
      loanApply s acc lt amtL p n inc = (s, .error .validation)) ∧
    (amtI ≤ 0 ∨ m ≤ 0 ∨ investmentRate it = none →
      investCreate s acc it amtI m st = (s, .error .validation)) :=
  ⟨fun h => transfer_of_nonpos d h,
   fun h => loanApply_validation h,
   fun h => investCreate_validation h⟩

/-- C9 witness: a zero-amount transfer, an unknown loan type, and an
unknown investment type are each rejected with `ValidationError` and the
state is unchanged. -/
theorem validation_rejection_spec_witness :
    transfer demoState 1 2 0 "x" = (demoState, .error .validation) ∧
    loanApply demoState 1 "crypto_loan" 1000 "p" 12 50000 =
      (demoState, .error .validation) ∧
    investCreate demoState 1 "crypto" 1000 12 0 =
      (demoState, .error .validation) :=
  ⟨(validation_rejection_spec demoState 1 2 0 "x" 1 "crypto_loan" 1000 "p" 12
      50000 "crypto" 1000 12 0).1 (le_refl 0),
   (validation_rejection_spec demoState 1 2 0 "x" 1 "crypto_loan" 1000 "p" 12
      50000 "crypto" 1000 12 0).2.1 (Or.inr (Or.inr (Or.inr rfl))),
   (validation_rejection_spec demoState 1 2 0 "x" 1 "crypto_loan" 1000 "p" 12
      50000 "crypto" 1000 12 0).2.2 (Or.inr (Or.inr rfl))⟩

/-- C10: the front-end product lookups are partial — defined exactly on
the five known keys of each table — and rendering an item whose type is
outside those keys fails (the looked-up entry is missing, so the
subsequent field accesses have nothing to read). -/
theorem product_lookup_partial :
    (∀ k, (investmentOptions k).isSome = true ↔
      k = "mutual_fund" ∨ k = "fixed_deposit" ∨ k = "equity" ∨ k = "bonds" ∨
      k = "gold") ∧
    (∀ k, (loanTypes k).isSome = true ↔
      k = "personal" ∨ k = "home" ∨ k = "car" ∨ k = "education" ∨
      k = "business") ∧
    (∀ k, investmentOptions k = none → renderInvestmentCard k = none) ∧
    (∀ k, loanTypes k = none → renderLoanCard k = none) ∧
    (∀ k o, investmentOptions k = some o →
      renderInvestmentCard k = some (o.icon, o.name, o.returns)) ∧
    (∀ k t, loanTypes k = some t → renderLoanCard k = some (t.icon, t.name)) :=
  ⟨investmentOptions_isSome, loanTypes_isSome,
   fun _ => renderInvestmentCard_none, fun _ => renderLoanCard_none,
   fun _ _ => renderInvestmentCard_some, fun _ _ => renderLoanCard_some⟩

/-- C10 witness: unknown keys yield no entry and the card rendering
fails, while a known key renders. -/
theorem product_lookup_partial_witness :
    investmentOptions "crypto" = none ∧ renderInvestmentCard "crypto" = none ∧
    loanTypes "payday" = none ∧ renderLoanCard "payday" = none ∧
    renderInvestmentCard "gold" = some ("🥇", "Digital Gold", "8%") :=
  ⟨rfl, product_lookup_partial.2.2.1 "crypto" rfl, rfl,
   product_lookup_partial.2.2.2.1 "payday" rfl,
   product_lookup_partial.2.2.2.2.1 "gold" ⟨"Digital Gold", "🥇", "8%"⟩ rfl⟩

end Nexora
